import Mathlib

/-!
Shallow embedding of the LLM response-parsing core of the youtube-recommend
repository: the taste-analyzer service (parseAnalysisResponse, analyzeTaste,
prompt builders) and the recommendations service (parseRecommendationsResponse,
formatCategories, buildPrompt), together with the error-classifying catch block
of the analyze route and the GitHub provider's error message shape.

JavaScript runtime values produced by JSON.parse are modelled by the inductive
type Json; JS numbers are modelled by exact rationals (the JSON grammar only
produces finite decimals, so every parsed number is a rational); JS strings are
Lean strings, with character-level operations carried out on their data lists.
Fallible code is modelled with Except String carrying the thrown Error message.
-/

namespace YTRec

/-! ### JavaScript number model

JS numbers reaching this core all come out of JSON text, so they are finite
decimals; they are modelled by exact rational numbers.  To keep every
definition evaluable by the kernel we carry them as unnormalized fractions
with a positive denominator (Rat's gcd-normalization is not
kernel-reducible); JsRat.toRat gives the rational value, and the arithmetic
claims are stated through it. -/

/-- An exact rational carried as an unnormalized fraction with positive
denominator. -/
structure JsRat where
  num : ℤ
  den : ℤ
  den_pos : 0 < den
deriving DecidableEq, Repr

/-- The rational value of a JsRat. -/
def JsRat.toRat (a : JsRat) : ℚ := (a.num : ℚ) / (a.den : ℚ)

/-- Embed an integer. -/
def JsRat.ofInt (n : ℤ) : JsRat := ⟨n, 1, Int.zero_lt_one⟩

/-- JS addition. -/
def JsRat.add (a b : JsRat) : JsRat :=
  ⟨a.num * b.den + b.num * a.den, a.den * b.den, Int.mul_pos a.den_pos b.den_pos⟩

/-- JS subtraction. -/
def JsRat.sub (a b : JsRat) : JsRat :=
  ⟨a.num * b.den - b.num * a.den, a.den * b.den, Int.mul_pos a.den_pos b.den_pos⟩

/-- JS multiplication. -/
def JsRat.mul (a b : JsRat) : JsRat :=
  ⟨a.num * b.num, a.den * b.den, Int.mul_pos a.den_pos b.den_pos⟩

/-- JS division.  Division by zero (which JS would turn into an infinity)
is never reached by the embedded code, whose only division is guarded by a
positivity check; it is mapped to zero to keep the function total. -/
def JsRat.div (a b : JsRat) : JsRat :=
  if h : 0 < b.num then ⟨a.num * b.den, a.den * b.num, Int.mul_pos a.den_pos h⟩
  else if h2 : b.num < 0 then ⟨-(a.num * b.den), a.den * (-b.num), Int.mul_pos a.den_pos (by omega)⟩
  else ⟨0, 1, Int.zero_lt_one⟩

/-- JS negation. -/
def JsRat.neg (a : JsRat) : JsRat := ⟨-a.num, a.den, a.den_pos⟩

/-- The comparison a less-or-equal b, by cross multiplication (valid because
denominators are positive). -/
def JsRat.ble (a b : JsRat) : Bool := decide (a.num * b.den ≤ b.num * a.den)

/-- The comparison a less-than b. -/
def JsRat.blt (a b : JsRat) : Bool := decide (a.num * b.den < b.num * a.den)

/-- Math.min on two numbers. -/
def JsRat.min (a b : JsRat) : JsRat := if JsRat.ble a b then a else b

/-- Math.max on two numbers. -/
def JsRat.max (a b : JsRat) : JsRat := if JsRat.ble a b then b else a

/-- Math.round: round half toward positive infinity, that is the floor of
x + 1/2, computed by floor division on the fraction. -/
def JsRat.round (a : JsRat) : ℤ := Int.fdiv (2 * a.num + a.den) (2 * a.den)

/-- The clamp Math.max(0, Math.min(1, x)) applied by both parsers to
weights and confidence scores. -/
def jsClamp01 (w : JsRat) : JsRat := JsRat.max (JsRat.ofInt 0) (JsRat.min (JsRat.ofInt 1) w)

/-! ### JavaScript value model -/

/-- A JavaScript value as produced by JSON.parse: null, booleans, (finite)
numbers, strings, arrays, and plain objects with ordered fields. -/
inductive Json : Type where
  | null : Json
  | bool : Bool → Json
  | num : JsRat → Json
  | str : String → Json
  | arr : List Json → Json
  | obj : List (String × Json) → Json
deriving Repr

mutual

/-- Decidable equality of Json values (handwritten because the nested List
occurrences defeat the deriving handler). -/
def Json.decEq : (a b : Json) → Decidable (a = b)
  | .null, .null => isTrue rfl
  | .bool a, .bool b => if h : a = b then isTrue (h ▸ rfl) else isFalse (by simp [h])
  | .num a, .num b => if h : a = b then isTrue (h ▸ rfl) else isFalse (by simp [h])
  | .str a, .str b => if h : a = b then isTrue (h ▸ rfl) else isFalse (by simp [h])
  | .arr xs, .arr ys =>
    (match Json.decEqList xs ys with
     | isTrue h => isTrue (h ▸ rfl)
     | isFalse h => isFalse (by simp [h]))
  | .obj fs, .obj gs =>
    (match Json.decEqFields fs gs with
     | isTrue h => isTrue (h ▸ rfl)
     | isFalse h => isFalse (by simp [h]))
  | .null, .bool _ => isFalse (by simp)
  | .null, .num _ => isFalse (by simp)
  | .null, .str _ => isFalse (by simp)
  | .null, .arr _ => isFalse (by simp)
  | .null, .obj _ => isFalse (by simp)
  | .bool _, .null => isFalse (by simp)
  | .bool _, .num _ => isFalse (by simp)
  | .bool _, .str _ => isFalse (by simp)
  | .bool _, .arr _ => isFalse (by simp)
  | .bool _, .obj _ => isFalse (by simp)
  | .num _, .null => isFalse (by simp)
  | .num _, .bool _ => isFalse (by simp)
  | .num _, .str _ => isFalse (by simp)
  | .num _, .arr _ => isFalse (by simp)
  | .num _, .obj _ => isFalse (by simp)
  | .str _, .null => isFalse (by simp)
  | .str _, .bool _ => isFalse (by simp)
  | .str _, .num _ => isFalse (by simp)
  | .str _, .arr _ => isFalse (by simp)
  | .str _, .obj _ => isFalse (by simp)
  | .arr _, .null => isFalse (by simp)
  | .arr _, .bool _ => isFalse (by simp)
  | .arr _, .num _ => isFalse (by simp)
  | .arr _, .str _ => isFalse (by simp)
  | .arr _, .obj _ => isFalse (by simp)
  | .obj _, .null => isFalse (by simp)
  | .obj _, .bool _ => isFalse (by simp)
  | .obj _, .num _ => isFalse (by simp)
  | .obj _, .str _ => isFalse (by simp)
  | .obj _, .arr _ => isFalse (by simp)

/-- Decidable equality of Json lists. -/
def Json.decEqList : (xs ys : List Json) → Decidable (xs = ys)
  | [], [] => isTrue rfl
  | [], _ :: _ => isFalse (by simp)
  | _ :: _, [] => isFalse (by simp)
  | x :: xs, y :: ys =>
    (match Json.decEq x y, Json.decEqList xs ys with
     | isTrue h1, isTrue h2 => isTrue (by rw [h1, h2])
     | isFalse h1, _ => isFalse (by simp [h1])
     | isTrue _, isFalse h2 => isFalse (by simp [h2]))

/-- Decidable equality of Json object field lists. -/
def Json.decEqFields : (fs gs : List (String × Json)) → Decidable (fs = gs)
  | [], [] => isTrue rfl
  | [], _ :: _ => isFalse (by simp)
  | _ :: _, [] => isFalse (by simp)
  | (k, v) :: fs, (k2, v2) :: gs =>
    (match String.decEq k k2, Json.decEq v v2, Json.decEqFields fs gs with
     | isTrue h0, isTrue h1, isTrue h2 => isTrue (by rw [h0, h1, h2])
     | isFalse h0, _, _ => isFalse (by simp [h0])
     | isTrue _, isFalse h1, _ => isFalse (by simp [h1])
     | isTrue _, isTrue _, isFalse h2 => isFalse (by simp [h2]))

end

instance : DecidableEq Json := Json.decEq

instance {ε α : Type} [DecidableEq ε] [DecidableEq α] : DecidableEq (Except ε α) := fun a b =>
  match a, b with
  | .ok x, .ok y => if h : x = y then isTrue (h ▸ rfl) else isFalse (by simp [h])
  | .error x, .error y => if h : x = y then isTrue (h ▸ rfl) else isFalse (by simp [h])
  | .ok _, .error _ => isFalse (by simp)
  | .error _, .ok _ => isFalse (by simp)

/-- JS truthiness of a parsed value: null, false, 0 and the empty string are
falsy; arrays and objects are always truthy. -/
def jsTruthy : Json → Bool
  | .null => false
  | .bool b => b
  | .num q => decide (q.num ≠ 0)
  | .str s => decide (s ≠ "")
  | .arr _ => true
  | .obj _ => true

/-- Whether the JS expression typeof v === 'object' holds: true for null,
arrays and objects, false for booleans, numbers and strings. -/
def jsTypeofIsObject : Json → Bool
  | .null => true
  | .arr _ => true
  | .obj _ => true
  | _ => false

/-- The check used by both parsers before treating a value as a record:
truthy and of typeof 'object' (so: a non-null object or an array). -/
def isUsableObject (v : Json) : Bool :=
  jsTruthy v && jsTypeofIsObject v

/-- JS property read v[key] on a parsed value, returning none for undefined.
On objects the last field with the key wins (JSON.parse keeps the last
duplicate); on every non-object value the named properties read undefined. -/
def getField (v : Json) (key : String) : Option Json :=
  match v with
  | .obj fields => (fields.filter (fun f => f.1 = key)).getLast?.map (·.2)
  | _ => none

/-! ### JS string helpers (character-list level) -/

/-- Whitespace for String.prototype.trim: space, tab, newline, carriage
return, vertical tab, form feed, NBSP, BOM and the line/paragraph
separators. -/
def jsWhitespace (c : Char) : Bool :=
  c = ' ' || c = '\t' || c = '\n' || c = '\r' ||
  c = Char.ofNat 11 || c = Char.ofNat 12 || c = Char.ofNat 160 ||
  c = Char.ofNat 0xFEFF || c = Char.ofNat 0x2028 || c = Char.ofNat 0x2029

/-- String.prototype.trim on the character list. -/
def trimData (s : List Char) : List Char :=
  ((s.dropWhile jsWhitespace).reverse.dropWhile jsWhitespace).reverse

/-- The backtick character, U+0060. -/
def backtick : Char := Char.ofNat 96

/-- The three-backtick fence marker of a markdown code block. -/
def fenceMark : List Char := [backtick, backtick, backtick]

/-- The only language tag the fence-stripping regex recognises. -/
def fenceJsonTag : List Char := ['j', 's', 'o', 'n']

/-- One application of replace with the opening-fence pattern: drop a leading
three-backtick marker, then an optional literal json tag, then an optional
newline.  Models the first replace of analyzer.ts line 128 and
recommender.ts line 234. -/
def stripOpenFenceData (s : List Char) : List Char :=
  if fenceMark.isPrefixOf s then
    let rest := s.drop 3
    let rest2 := if fenceJsonTag.isPrefixOf rest then rest.drop 4 else rest
    match rest2 with
    | '\n' :: r => r
    | _ => rest2
  else s

/-- One application of replace with the closing-fence pattern: drop a trailing
three-backtick marker and the optional newline just before it.  Implemented on
the reversed list (the fence marker is its own reverse). -/
def stripCloseFenceData (s : List Char) : List Char :=
  let r := s.reverse
  if fenceMark.isPrefixOf r then
    let rest := r.drop 3
    (match rest with
     | '\n' :: t => t
     | _ => rest).reverse
  else s

/-- The guarded fence-stripping of both parsers: only when the text starts
with a fence marker are the two replaces applied; otherwise the text is
returned untouched. -/
def stripFencesData (s : List Char) : List Char :=
  if fenceMark.isPrefixOf s then stripCloseFenceData (stripOpenFenceData s) else s

/-- The shared preamble of parseAnalysisResponse and
parseRecommendationsResponse: trim the raw model text, then strip a wrapping
markdown code fence if one is present. -/
def preprocessResponse (content : String) : String :=
  ⟨stripFencesData (trimData content.data)⟩

/-! ### A model of JSON.parse

The platform's JSON.parse is modelled by a total, fuel-indexed
recursive-descent parser over the character list, producing a Json value or
a syntax-error message. -/

/-- JSON insignificant whitespace. -/
def jsonSpace (c : Char) : Bool :=
  c = ' ' || c = '\t' || c = '\n' || c = '\r'

/-- Skip insignificant whitespace. -/
def skipSpace : List Char → List Char
  | c :: cs => if jsonSpace c then skipSpace cs else c :: cs
  | [] => []

/-- Whether a character is a decimal digit. -/
def isDigitCh (c : Char) : Bool := c.isDigit

/-- Split a maximal run of decimal digits off the front. -/
def readDigits : List Char → List Char × List Char
  | c :: cs =>
    if isDigitCh c then
      let (ds, rest) := readDigits cs
      (c :: ds, rest)
    else ([], c :: cs)
  | [] => ([], [])

/-- Numeric value of a digit run. -/
def digitsVal (ds : List Char) : ℕ :=
  ds.foldl (fun acc c => 10 * acc + (c.toNat - 48)) 0

/-- Value of a hexadecimal digit, if it is one. -/
def hexDigitVal (c : Char) : Option ℕ :=
  if isDigitCh c then some (c.toNat - 48)
  else if 'a' ≤ c && c ≤ 'f' then some (c.toNat - 87)
  else if 'A' ≤ c && c ≤ 'F' then some (c.toNat - 55)
  else none

/-- The single-character JSON escapes. -/
def jsonEscapeChar (c : Char) : Option Char :=
  if c = '"' then some '"'
  else if c = '\\' then some '\\'
  else if c = '/' then some '/'
  else if c = 'b' then some (Char.ofNat 8)
  else if c = 'f' then some (Char.ofNat 12)
  else if c = 'n' then some '\n'
  else if c = 'r' then some '\r'
  else if c = 't' then some '\t'
  else none

/-- Read a JSON string body (the opening quote already consumed), handling
escapes, up to and including the closing quote; acc holds the characters
read so far, in reverse. -/
def readStringBody (source : List Char) (acc : List Char) :
    Except String (String × List Char) :=
  match source with
  | '"' :: more => .ok (String.mk acc.reverse, more)
  | '\\' :: 'u' :: h1 :: h2 :: h3 :: h4 :: more =>
    (match hexDigitVal h1, hexDigitVal h2, hexDigitVal h3, hexDigitVal h4 with
     | some a, some b, some c, some d =>
       readStringBody more (Char.ofNat (((a * 16 + b) * 16 + c) * 16 + d) :: acc)
     | _, _, _, _ => .error "Bad Unicode escape in JSON")
  | '\\' :: e :: more =>
    (match jsonEscapeChar e with
     | some ch => readStringBody more (ch :: acc)
     | none => .error "Bad escaped character in JSON")
  | c :: more => readStringBody more (c :: acc)
  | [] => .error "Unterminated string in JSON"

/-- Assemble the exact decimal value sign · digits.digits · 10 ^ e of a JSON
number literal. -/
def mkJsNum (neg : Bool) (intDs fracDs : List Char) (e : ℤ) : JsRat :=
  let m : ℤ := digitsVal (intDs ++ fracDs)
  let p : ℤ := e - fracDs.length
  let mag : JsRat :=
    if 0 ≤ p then ⟨m * 10 ^ p.toNat, 1, Int.zero_lt_one⟩
    else ⟨m, 10 ^ (-p).toNat, by positivity⟩
  if neg then mag.neg else mag

/-- Split an optional leading minus sign off a number literal. -/
def numberSign : List Char → Bool × List Char
  | '-' :: tail => (true, tail)
  | other => (false, other)

/-- Split an optional signed decimal exponent marker (e or E) off the tail
of a number literal, as exponent value and remaining input; an exponent
marker with no digits is a syntax error, reported as none. -/
def numberExponent : List Char → Option (ℤ × List Char)
  | 'e' :: tail => numberExponentDigits tail
  | 'E' :: tail => numberExponentDigits tail
  | other => some (0, other)
where
  /-- Read the sign and digits after the exponent marker. -/
  numberExponentDigits (tail : List Char) : Option (ℤ × List Char) :=
    let signed : ℤ × List Char :=
      match tail with
      | '+' :: t2 => (1, t2)
      | '-' :: t2 => (-1, t2)
      | t2 => (1, t2)
    match readDigits signed.2 with
    | ([], _) => none
    | (ds, rest) => some (signed.1 * digitsVal ds, rest)

/-- Read a JSON number starting at a minus sign or digit, as an exact
rational: an integer part without leading zeros, an optional fraction, and
an optional decimal exponent. -/
def readNumber (cs : List Char) : Except String (JsRat × List Char) :=
  let sgn := numberSign cs
  match readDigits sgn.2 with
  | ([], _) => .error "No number after minus sign in JSON"
  | (d0 :: ds, afterInt) =>
    if d0 = '0' ∧ ds ≠ [] then .error "Unexpected leading zero in JSON"
    else
      match afterInt with
      | '.' :: afterDot =>
        (match readDigits afterDot with
         | ([], _) => .error "Unterminated fractional number in JSON"
         | (fds, afterFrac) =>
           match numberExponent afterFrac with
           | none => .error "Exponent part is missing a number in JSON"
           | some (e, rest) => .ok (mkJsNum sgn.1 (d0 :: ds) fds e, rest))
      | other =>
        match numberExponent other with
        | none => .error "Exponent part is missing a number in JSON"
        | some (e, rest) => .ok (mkJsNum sgn.1 (d0 :: ds) [] e, rest)

mutual

/-- Parse one JSON value (fuel-indexed for totality). -/
def jsonVal : ℕ → List Char → Except String (Json × List Char)
  | 0, _ => .error "JSON value too deeply nested"
  | fuel + 1, cs =>
    match skipSpace cs with
    | [] => .error "Unexpected end of JSON input"
    | c :: rest =>
      if c = 'n' then
        if ['u', 'l', 'l'].isPrefixOf rest then .ok (.null, rest.drop 3)
        else .error "Unexpected token n in JSON"
      else if c = 't' then
        if ['r', 'u', 'e'].isPrefixOf rest then .ok (.bool true, rest.drop 3)
        else .error "Unexpected token t in JSON"
      else if c = 'f' then
        if ['a', 'l', 's', 'e'].isPrefixOf rest then .ok (.bool false, rest.drop 4)
        else .error "Unexpected token f in JSON"
      else if c = '"' then
        match readStringBody rest [] with
        | .ok (s, r) => .ok (.str s, r)
        | .error e => .error e
      else if c = '[' then
        match skipSpace rest with
        | ']' :: r => .ok (.arr [], r)
        | other =>
          match jsonItems fuel other with
          | .ok (items, r) => .ok (.arr items, r)
          | .error e => .error e
      else if c = '{' then
        match skipSpace rest with
        | '}' :: r => .ok (.obj [], r)
        | other =>
          match jsonFields fuel other with
          | .ok (fields, r) => .ok (.obj fields, r)
          | .error e => .error e
      else if c = '-' || isDigitCh c then
        match readNumber (c :: rest) with
        | .ok (q, r) => .ok (.num q, r)
        | .error e => .error e
      else .error "Unexpected token in JSON"

/-- Parse the elements of a non-empty array, consuming the closing bracket. -/
def jsonItems : ℕ → List Char → Except String (List Json × List Char)
  | 0, _ => .error "JSON value too deeply nested"
  | fuel + 1, cs =>
    match jsonVal fuel cs with
    | .error e => .error e
    | .ok (v, rest) =>
      match skipSpace rest with
      | ',' :: r =>
        (match jsonItems fuel r with
         | .ok (vs, r2) => .ok (v :: vs, r2)
         | .error e => .error e)
      | ']' :: r => .ok ([v], r)
      | _ => .error "Expected comma or closing bracket in JSON array"

/-- Parse the members of a non-empty object, consuming the closing brace. -/
def jsonFields : ℕ → List Char → Except String (List (String × Json) × List Char)
  | 0, _ => .error "JSON value too deeply nested"
  | fuel + 1, cs =>
    match skipSpace cs with
    | '"' :: rest =>
      (match readStringBody rest [] with
       | .error e => .error e
       | .ok (key, r1) =>
         match skipSpace r1 with
         | ':' :: r2 =>
           (match jsonVal fuel r2 with
            | .error e => .error e
            | .ok (v, r3) =>
              match skipSpace r3 with
              | ',' :: r4 =>
                (match jsonFields fuel r4 with
                 | .ok (fs, r5) => .ok ((key, v) :: fs, r5)
                 | .error e => .error e)
              | '}' :: r4 => .ok ((key, v) :: [], r4)
              | _ => .error "Expected comma or closing brace in JSON object")
         | _ => .error "Expected colon after key in JSON object")
    | _ => .error "Expected string key in JSON object"

end

/-- The model of the platform's JSON.parse: parse one value and insist that
only whitespace follows it. -/
def jsonParse (s : String) : Except String Json :=
  match jsonVal (s.data.length + 1) s.data with
  | .error e => .error e
  | .ok (v, rest) =>
    match skipSpace rest with
    | [] => .ok v
    | _ => .error "Unexpected non-whitespace character after JSON data"

/-! ### Shared LLM service types (services/llm/types.ts) -/

/-- A chat message role. -/
inductive LLMRole where
  | system
  | user
  | assistant
deriving DecidableEq, Repr

/-- A chat message. -/
structure LLMMessage where
  role : LLMRole
  content : String
deriving DecidableEq, Repr

/-- The completion options the orchestrators pass to complete. -/
structure LLMCompletionOptions where
  temperature : JsRat
  maxTokens : ℕ
deriving Repr

/-! ### Taste analyzer service (services/analyzer.ts)

The provider call inside analyzeTaste is a network effect; it is modelled
by an oracle argument giving the content of the completion the provider
would return, and the run function additionally reports whether the
provider was invoked at all. -/

/-- One subscription record handed to the analyzer. -/
structure ChannelData where
  channelTitle : String
  channelDescription : Option String
  subscriberCount : Option JsRat
  videoCount : Option JsRat
deriving Repr

/-- One liked-video record handed to the analyzer. -/
structure VideoData where
  videoTitle : String
  channelTitle : String
deriving Repr

/-- The analyzer input. -/
structure TasteAnalysisInput where
  subscriptions : List ChannelData
  likedVideos : List VideoData
deriving Repr

/-- One validated taste category (database/schema.ts TasteCategory). -/
structure TasteCategory where
  name : String
  weight : JsRat
  description : String
  subCategories : Option (List String)
deriving DecidableEq, Repr

/-- The analyzer result. -/
structure TasteAnalysisResult where
  categories : List TasteCategory
  analysisSummary : String
deriving DecidableEq, Repr

/-- The analyzer system prompt (analyzer.ts SYSTEM_PROMPT). -/
def analyzerSystemPrompt : String :=
  "You are an expert content analyst specializing in understanding user preferences and interests based on their YouTube activity. Your task is to analyze a user's YouTube subscriptions and liked videos to create a detailed taste profile.\n\n" ++
  "You must respond with valid JSON only, no markdown formatting or code blocks.\n\n" ++
  "Analyze the provided data and identify:\n" ++
  "1. Major interest categories (e.g., Technology, Gaming, Music, Education, Entertainment, Sports, etc.)\n" ++
  "2. Subcategories within each major category\n" ++
  "3. The relative weight/importance of each category (0.0 to 1.0, all weights should sum to 1.0)\n" ++
  "4. A brief description of what specifically interests them in each category\n\n" ++
  "Be specific and insightful. Don't just list generic categories - identify the specific niches and themes that emerge from their viewing habits."

/-- The analyzer user prompt template (analyzer.ts USER_PROMPT_TEMPLATE);
braces are written with their \x7b / \x7d escapes. -/
def analyzerUserPromptTemplate : String :=
  "Analyze this YouTube activity data and create a taste profile:\n\n" ++
  "## Subscribed Channels (\x7b\x7bsubscriptionCount\x7d\x7d total):\n\x7b\x7bsubscriptions\x7d\x7d\n\n" ++
  "## Liked Videos (\x7b\x7blikedVideoCount\x7d\x7d total, showing sample):\n\x7b\x7blikedVideos\x7d\x7d\n\n" ++
  "Respond with JSON in this exact format:\n" ++
  "\x7b\n  \"categories\": [\n    \x7b\n      \"name\": \"Category Name\",\n      \"weight\": 0.25,\n" ++
  "      \"description\": \"Specific description of their interest in this area\",\n" ++
  "      \"subCategories\": [\"Subcategory 1\", \"Subcategory 2\"]\n    \x7d\n  ],\n" ++
  "  \"analysisSummary\": \"A 2-3 sentence summary of their overall content preferences and what makes their taste unique.\"\n\x7d\n\n" ++
  "Important:\n- Include 4-8 categories\n- Weights must sum to 1.0\n- Be specific, not generic\n- Base analysis on actual channel/video names provided"

/-- Replace the first occurrence of a (non-empty) pattern, as
String.prototype.replace with a string pattern does; an empty pattern
matches at the start. -/
def replaceFirstData (pat rep : List Char) (s : List Char) : List Char :=
  if pat.isEmpty then rep ++ s else go s
where
  /-- Scan for the first occurrence and splice the replacement in. -/
  go : List Char → List Char
    | [] => []
    | c :: cs =>
      if pat.isPrefixOf (c :: cs) then rep ++ (c :: cs).drop pat.length
      else c :: go cs

/-- String.prototype.replace with a string pattern (first occurrence only;
the special dollar replacement patterns of JS, never produced by this
code's templates, are not modelled). -/
def replaceFirst (s pat rep : String) : String :=
  ⟨replaceFirstData pat.data rep.data s.data⟩

/-- Format subscription data for the prompt (analyzer.ts
formatSubscriptions): up to maxItems lines, one per channel, with a
truncated description in parentheses when one is present and non-empty. -/
def formatSubscriptions (subscriptions : List ChannelData) (maxItems : ℕ := 50) : String :=
  String.intercalate "\n" ((subscriptions.take maxItems).map fun sub =>
    match sub.channelDescription with
    | some d =>
      if d ≠ "" then
        "- " ++ sub.channelTitle ++ " (" ++ (⟨d.data.take 100⟩ : String) ++
          (if 100 < d.data.length then "..." else "") ++ ")"
      else "- " ++ sub.channelTitle
    | none => "- " ++ sub.channelTitle)

/-- Format liked videos for the prompt (analyzer.ts formatLikedVideos). -/
def formatLikedVideos (videos : List VideoData) (maxItems : ℕ := 30) : String :=
  String.intercalate "\n" ((videos.take maxItems).map fun video =>
    "- \"" ++ video.videoTitle ++ "\" by " ++ video.channelTitle)

/-- Build the analysis prompt from input data (analyzer.ts
buildAnalysisPrompt). -/
def buildAnalysisPrompt (input : TasteAnalysisInput) : String :=
  let subscriptionsText := formatSubscriptions input.subscriptions
  let likedVideosText := formatLikedVideos input.likedVideos
  replaceFirst (replaceFirst (replaceFirst (replaceFirst analyzerUserPromptTemplate
    "\x7b\x7bsubscriptionCount\x7d\x7d" (toString input.subscriptions.length))
    "\x7b\x7bsubscriptions\x7d\x7d"
      (if subscriptionsText ≠ "" then subscriptionsText else "No subscriptions available"))
    "\x7b\x7blikedVideoCount\x7d\x7d" (toString input.likedVideos.length))
    "\x7b\x7blikedVideos\x7d\x7d"
      (if likedVideosText ≠ "" then likedVideosText else "No liked videos available")

/-- Validate one entry of the categories array (the body of the map in
analyzer.ts parseAnalysisResponse lines 155-182): reject a non-object
entry, a non-string name, a non-number weight or a non-string description
with an error naming the index; clamp the weight to [0,1]; keep only the
string entries of an array-valued subCategories field. -/
def validateCategory (index : ℕ) (cat : Json) : Except String TasteCategory :=
  if isUsableObject cat = false then
    .error ("Category " ++ toString index ++ " is not an object")
  else
    match getField cat "name" with
    | some (.str name) =>
      (match getField cat "weight" with
       | some (.num w) =>
         (match getField cat "description" with
          | some (.str description) =>
            .ok { name := name
                  weight := jsClamp01 w
                  description := description
                  subCategories :=
                    match getField cat "subCategories" with
                    | some (.arr subs) =>
                      some (subs.filterMap fun s =>
                        match s with
                        | .str t => some t
                        | _ => none)
                    | _ => none }
          | _ => .error ("Category " ++ toString index ++ " missing description"))
       | _ => .error ("Category " ++ toString index ++ " missing weight"))
    | _ => .error ("Category " ++ toString index ++ " missing name")

/-- Validate the categories array in index order, stopping at the first
failure (the map in analyzer.ts throws at the first bad entry). -/
def validateCategories (index : ℕ) : List Json → Except String (List TasteCategory)
  | [] => .ok []
  | c :: cs =>
    match validateCategory index c with
    | .error e => .error e
    | .ok t =>
      match validateCategories (index + 1) cs with
      | .error e => .error e
      | .ok ts => .ok (t :: ts)

/-- Normalize weights to sum to 1.0 (analyzer.ts lines 184-190): divide
each weight by the total unless the total is not positive. -/
def normalizeWeights (categories : List TasteCategory) : List TasteCategory :=
  let totalWeight := categories.foldl (fun sum cat => sum.add cat.weight) (JsRat.ofInt 0)
  if JsRat.blt (JsRat.ofInt 0) totalWeight then
    categories.map fun cat => { cat with weight := cat.weight.div totalWeight }
  else categories

/-- Parse and validate the LLM response (analyzer.ts
parseAnalysisResponse). -/
def parseAnalysisResponse (content : String) : Except String TasteAnalysisResult :=
  let jsonContent := preprocessResponse content
  match jsonParse jsonContent with
  | .error e => .error ("Failed to parse LLM response as JSON: " ++ e)
  | .ok parsed =>
    if isUsableObject parsed = false then .error "LLM response is not an object"
    else
      match getField parsed "categories" with
      | some (.arr cats) =>
        (match getField parsed "analysisSummary" with
         | some (.str analysisSummary) =>
           (match validateCategories 0 cats with
            | .error e => .error e
            | .ok categories =>
              .ok { categories := normalizeWeights categories
                    analysisSummary := analysisSummary })
         | _ => .error "LLM response missing analysisSummary string")
      | _ => .error "LLM response missing categories array"

/-- Analyze the user's YouTube data (analyzer.ts analyzeTaste), with the
provider modelled by an oracle giving the completion content; the second
component reports whether the provider was called. -/
def analyzeTasteRun (oracle : List LLMMessage → LLMCompletionOptions → String)
    (input : TasteAnalysisInput) : Except String TasteAnalysisResult × Bool :=
  if input.subscriptions.length = 0 ∧ input.likedVideos.length = 0 then
    (.error "No YouTube data available to analyze. Please sync your YouTube data first.", false)
  else
    let userPrompt := buildAnalysisPrompt input
    let messages : List LLMMessage :=
      [{ role := .system, content := analyzerSystemPrompt },
       { role := .user, content := userPrompt }]
    let response := oracle messages { temperature := ⟨7, 10, by norm_num⟩, maxTokens := 2000 }
    (parseAnalysisResponse response, true)

/-! ### Recommendations service (services/recommender.ts) -/

/-- One parsed recommendation.  The type field is carried as the runtime
string (after defaulting it is always one of channel, hidden_gem or
content_gap). -/
structure RecommendationItem where
  type : String
  channelTitle : String
  channelId : Option String
  reason : String
  category : String
  confidenceScore : JsRat
  subscriberCount : Option JsRat
deriving DecidableEq, Repr

/-- The taste profile part of the recommender input. -/
structure TasteProfileInput where
  categories : List TasteCategory
  analysisSummary : String
deriving Repr

/-- The recommender input. -/
structure RecommendationsInput where
  tasteProfile : TasteProfileInput
  existingSubscriptions : List String
deriving Repr

/-- The recommender result. -/
structure RecommendationsResult where
  recommendations : List RecommendationItem
deriving DecidableEq, Repr

/-- The recommender system prompt (recommender.ts SYSTEM_PROMPT). -/
def recommenderSystemPrompt : String :=
  "You are an expert YouTube content curator and recommendation engine. Your task is to recommend YouTube channels based on a user's taste profile.\n\n" ++
  "You must respond with valid JSON only, no markdown formatting or code blocks.\n\n" ++
  "You will generate three types of recommendations:\n\n" ++
  "1. **Channel Recommendations** (type: \"channel\"): Popular, well-established channels that match the user's interests. These should be high-quality channels with significant followings.\n\n" ++
  "2. **Hidden Gems** (type: \"hidden_gem\"): Smaller, underrated channels (typically under 500K subscribers) that produce excellent content matching the user's tastes. These are channels they might not discover on their own.\n\n" ++
  "3. **Content Gaps** (type: \"content_gap\"): Topics or content areas that align with the user's interests but that they haven't explored yet. Suggest specific channels that could fill these gaps.\n\n" ++
  "For each recommendation, provide:\n- The actual YouTube channel name (be specific and accurate)\n" ++
  "- A personalized reason why this channel matches their tastes\n- The category it fits into\n" ++
  "- A confidence score (0.0-1.0) indicating how well it matches their profile"

/-- The recommender user prompt template (recommender.ts
USER_PROMPT_TEMPLATE); braces are written with their escapes. -/
def recommenderUserPromptTemplate : String :=
  "Based on this user's taste profile, generate personalized YouTube channel recommendations.\n\n" ++
  "## User's Taste Profile\n\n### Summary\n\x7b\x7banalysisSummary\x7d\x7d\n\n" ++
  "### Categories (by importance)\n\x7b\x7bcategories\x7d\x7d\n\n" ++
  "### Channels to EXCLUDE (user already subscribed)\n\x7b\x7bexistingSubscriptions\x7d\x7d\n\n" ++
  "Generate recommendations in this JSON format:\n\x7b\n  \"recommendations\": [\n    \x7b\n" ++
  "      \"type\": \"channel\",\n      \"channelTitle\": \"Exact YouTube Channel Name\",\n" ++
  "      \"reason\": \"Personalized reason based on their specific interests\",\n" ++
  "      \"category\": \"Category Name\",\n      \"confidenceScore\": 0.85\n    \x7d,\n    \x7b\n" ++
  "      \"type\": \"hidden_gem\",\n      \"channelTitle\": \"Smaller Channel Name\",\n" ++
  "      \"reason\": \"Why this underrated channel is perfect for them\",\n" ++
  "      \"category\": \"Category Name\",\n      \"confidenceScore\": 0.75\n    \x7d,\n    \x7b\n" ++
  "      \"type\": \"content_gap\",\n      \"channelTitle\": \"Channel Name\",\n" ++
  "      \"reason\": \"How this expands their interests into new territory\",\n" ++
  "      \"category\": \"New Category\",\n      \"confidenceScore\": 0.70\n    \x7d\n  ]\n\x7d\n\n" ++
  "Requirements:\n- Generate 3-5 \"channel\" recommendations (popular channels)\n" ++
  "- Generate 2-3 \"hidden_gem\" recommendations (smaller channels)\n" ++
  "- Generate 2-3 \"content_gap\" recommendations (new areas to explore)\n" ++
  "- Use REAL YouTube channel names that actually exist\n" ++
  "- Do NOT recommend any channels from the exclude list\n" ++
  "- Make reasons specific and personalized, not generic\n" ++
  "- Confidence scores should reflect how well the channel matches their profile"

/-- The precedence test derived from the sort comparator
(a, b) => b.weight - a.weight of formatCategories: a may stay before b
exactly when the comparator is non-positive, that is when b.weight - a.weight
is at most zero. -/
def categoryLe (a b : TasteCategory) : Bool :=
  JsRat.ble (JsRat.sub b.weight a.weight) (JsRat.ofInt 0)

/-- The stable sort applied by formatCategories: Array.prototype.sort with
the comparator (a, b) => b.weight - a.weight, which is the unique stable
sort by descending weight. -/
def sortCategoriesDesc (categories : List TasteCategory) : List TasteCategory :=
  categories.mergeSort categoryLe

/-- Render one taste-category line of the recommendations prompt. -/
def renderCategoryLine (cat : TasteCategory) : String :=
  "- " ++ cat.name ++ " (" ++ toString (JsRat.round (JsRat.mul cat.weight (JsRat.ofInt 100))) ++
    "%): " ++ cat.description ++
    (match cat.subCategories with
     | some subs => if subs.length ≠ 0 then " (" ++ String.intercalate ", " subs ++ ")" else ""
     | none => "")

/-- Format taste categories for the prompt (recommender.ts
formatCategories).  Array.prototype.sort sorts the caller's array in place,
so the run function returns both the rendered text and the array the caller
is left holding. -/
def formatCategoriesRun (categories : List TasteCategory) : String × List TasteCategory :=
  let sorted := sortCategoriesDesc categories
  (String.intercalate "\n" (sorted.map renderCategoryLine), sorted)

/-- The rendered text of formatCategories. -/
def formatCategories (categories : List TasteCategory) : String :=
  (formatCategoriesRun categories).1

/-- Format existing subscriptions for exclusion (recommender.ts
formatExclusions). -/
def formatExclusions (subscriptions : List String) (maxItems : ℕ := 100) : String :=
  if subscriptions.length = 0 then "None"
  else String.intercalate ", " (subscriptions.take maxItems)

/-- Build the recommendations prompt (recommender.ts buildPrompt),
returning the prompt together with the input as the caller sees it
afterwards: its categories array has been sorted in place by
formatCategories. -/
def buildPromptRun (input : RecommendationsInput) : String × RecommendationsInput :=
  let fc := formatCategoriesRun input.tasteProfile.categories
  let exclusionsText := formatExclusions input.existingSubscriptions
  (replaceFirst (replaceFirst (replaceFirst recommenderUserPromptTemplate
      "\x7b\x7banalysisSummary\x7d\x7d" input.tasteProfile.analysisSummary)
      "\x7b\x7bcategories\x7d\x7d" fc.1)
      "\x7b\x7bexistingSubscriptions\x7d\x7d" exclusionsText,
   { input with tasteProfile := { input.tasteProfile with categories := fc.2 } })

/-- Whether a runtime string is one of the three recognised recommendation
types. -/
def isRecognizedRecType (t : String) : Bool :=
  t = "channel" || t = "hidden_gem" || t = "content_gap"

/-- The type field of a kept recommendation entry after defaulting
(recommender.ts lines 275-278). -/
def recTypeOf (rec : Json) : String :=
  match getField rec "type" with
  | some (.str t) => if isRecognizedRecType t then t else "channel"
  | _ => "channel"

/-- The category field after defaulting (recommender.ts lines 285-287). -/
def recCategoryOf (rec : Json) : String :=
  match getField rec "category" with
  | some (.str c) => if c ≠ "" then c else "General"
  | _ => "General"

/-- The confidence score before clamping, after defaulting a missing or
non-number field to 0.7 (recommender.ts lines 289-291). -/
def recScoreOf (rec : Json) : JsRat :=
  match getField rec "confidenceScore" with
  | some (.num q) => q
  | _ => ⟨7, 10, by norm_num⟩

/-- The channelId field, carried only when present as a string. -/
def recChannelIdOf (rec : Json) : Option String :=
  match getField rec "channelId" with
  | some (.str s) => some s
  | _ => none

/-- The subscriberCount field, carried only when present as a number. -/
def recSubscriberCountOf (rec : Json) : Option JsRat :=
  match getField rec "subscriberCount" with
  | some (.num n) => some n
  | _ => none

/-- Process one entry of the recommendations array (the loop body of
recommender.ts parseRecommendationsResponse lines 259-302): skip an entry
that is not an object or whose channelTitle or reason is missing,
non-string or empty; default the other fields and clamp the confidence
score on push. -/
def processRec (rec : Json) : Option RecommendationItem :=
  if isUsableObject rec = false then none
  else
    match getField rec "channelTitle" with
    | some (.str channelTitle) =>
      if channelTitle = "" then none
      else
        (match getField rec "reason" with
         | some (.str reason) =>
           if reason = "" then none
           else
             some { type := recTypeOf rec
                    channelTitle := channelTitle
                    channelId := recChannelIdOf rec
                    reason := reason
                    category := recCategoryOf rec
                    confidenceScore := jsClamp01 (recScoreOf rec)
                    subscriberCount := recSubscriberCountOf rec }
         | _ => none)
    | _ => none

/-- Parse and validate the LLM response (recommender.ts
parseRecommendationsResponse). -/
def parseRecommendationsResponse (content : String) : Except String RecommendationsResult :=
  let jsonContent := preprocessResponse content
  match jsonParse jsonContent with
  | .error e => .error ("Failed to parse LLM response as JSON: " ++ e)
  | .ok parsed =>
    if isUsableObject parsed = false then .error "LLM response is not an object"
    else
      match getField parsed "recommendations" with
      | some (.arr recs) =>
        let recommendations := recs.filterMap processRec
        if recommendations.length = 0 then .error "No valid recommendations in LLM response"
        else .ok { recommendations := recommendations }
      | _ => .error "LLM response missing recommendations array"

/-- Generate recommendations (recommender.ts generateRecommendations), with
the provider modelled by an oracle; the second component is the input as
the caller sees it afterwards (buildPrompt sorts its categories array in
place). -/
def generateRecommendationsRun (oracle : List LLMMessage → LLMCompletionOptions → String)
    (input : RecommendationsInput) : Except String RecommendationsResult × RecommendationsInput :=
  if input.tasteProfile.categories.length = 0 then
    (.error "No taste profile available. Please analyze your tastes first.", input)
  else
    let bp := buildPromptRun input
    let messages : List LLMMessage :=
      [{ role := .system, content := recommenderSystemPrompt },
       { role := .user, content := bp.1 }]
    let response := oracle messages { temperature := ⟨8, 10, by norm_num⟩, maxTokens := 3000 }
    (parseRecommendationsResponse response, bp.2)

/-! ### The analyze route's error classification (api/analyze.post.ts
lines 81-93) and the GitHub provider's error message (llm/github.ts
line 101) -/

/-- What the route's catch block can observe about a caught JS value. -/
structure CaughtValue where
  isTruthyObject : Bool
  hasStatusCodeProp : Bool
  statusCode : ℕ
  isErrorInstance : Bool
  message : String
deriving Repr

/-- An HTTP error as surfaced to the route's caller. -/
structure HttpError where
  statusCode : ℕ
  message : String
deriving DecidableEq, Repr

/-- The catch block of api/analyze.post.ts: a caught value that is a truthy
object with a statusCode property is re-thrown unchanged; otherwise a 500
is created whose message is the caught Error's own message when the value
is an Error instance, and the generic text only when it is not. -/
def analyzeCatchHandler (e : CaughtValue) : HttpError :=
  if e.isTruthyObject && e.hasStatusCodeProp then
    { statusCode := e.statusCode, message := e.message }
  else
    { statusCode := 500
      message := if e.isErrorInstance then e.message else "Failed to analyze taste profile" }

/-- The message of the Error thrown by the GitHub Models provider on a
non-success upstream status (llm/github.ts line 101): it embeds the raw
error body text returned by the provider. -/
def githubProviderErrorMessage (status : ℕ) (errorText : String) : String :=
  "GitHub Models API error (" ++ toString status ++ "): " ++ errorText

/-! ### Bridge lemmas from JsRat to the rational numbers -/

theorem JsRat.den_pos_q (a : JsRat) : (0 : ℚ) < (a.den : ℚ) := by
  exact_mod_cast a.den_pos

theorem JsRat.den_ne_zero_q (a : JsRat) : (a.den : ℚ) ≠ 0 :=
  ne_of_gt a.den_pos_q

theorem JsRat.toRat_ofInt (n : ℤ) : (JsRat.ofInt n).toRat = (n : ℚ) := by
  simp [JsRat.ofInt, JsRat.toRat]

theorem JsRat.ble_iff (a b : JsRat) : JsRat.ble a b = true ↔ a.toRat ≤ b.toRat := by
  simp only [JsRat.ble, decide_eq_true_eq, JsRat.toRat]
  rw [div_le_div_iff₀ a.den_pos_q b.den_pos_q]
  exact_mod_cast Iff.rfl

theorem JsRat.blt_iff (a b : JsRat) : JsRat.blt a b = true ↔ a.toRat < b.toRat := by
  simp only [JsRat.blt, decide_eq_true_eq, JsRat.toRat]
  rw [div_lt_div_iff₀ a.den_pos_q b.den_pos_q]
  exact_mod_cast Iff.rfl

theorem JsRat.toRat_add (a b : JsRat) : (a.add b).toRat = a.toRat + b.toRat := by
  simp only [JsRat.add, JsRat.toRat]
  have ha := a.den_ne_zero_q
  have hb := b.den_ne_zero_q
  push_cast
  field_simp
  try ring

theorem JsRat.toRat_sub (a b : JsRat) : (a.sub b).toRat = a.toRat - b.toRat := by
  simp only [JsRat.sub, JsRat.toRat]
  have ha := a.den_ne_zero_q
  have hb := b.den_ne_zero_q
  push_cast
  field_simp
  try ring

theorem JsRat.toRat_div_pos (a b : JsRat) (hb : 0 < b.num) :
    (a.div b).toRat = a.toRat / b.toRat := by
  simp only [JsRat.div, hb, dif_pos, JsRat.toRat]
  have ha := a.den_ne_zero_q
  have hbq : (b.num : ℚ) ≠ 0 := by exact_mod_cast ne_of_gt hb
  have hbd := b.den_ne_zero_q
  push_cast
  field_simp
  try ring

theorem jsClamp01_bounds (w : JsRat) :
    0 ≤ (jsClamp01 w).toRat ∧ (jsClamp01 w).toRat ≤ 1 := by
  unfold jsClamp01 JsRat.max JsRat.min
  have h0 : (JsRat.ofInt 0).toRat = 0 := by rw [JsRat.toRat_ofInt]; norm_num
  have h1 : (JsRat.ofInt 1).toRat = 1 := by rw [JsRat.toRat_ofInt]; norm_num
  by_cases hmin : JsRat.ble (JsRat.ofInt 1) w = true
  · rw [if_pos hmin]
    by_cases hmax : JsRat.ble (JsRat.ofInt 0) (JsRat.ofInt 1) = true
    · rw [if_pos hmax, h1]; norm_num
    · rw [if_neg hmax, h0]; norm_num
  · rw [if_neg hmin]
    have hw1 : w.toRat ≤ 1 := by
      have := (JsRat.ble_iff (JsRat.ofInt 1) w).not.mp (by simpa using hmin)
      rw [h1] at this
      linarith [lt_of_not_le this]
    by_cases hmax : JsRat.ble (JsRat.ofInt 0) w = true
    · rw [if_pos hmax]
      have := (JsRat.ble_iff (JsRat.ofInt 0) w).mp hmax
      rw [h0] at this
      exact ⟨this, hw1⟩
    · rw [if_neg hmax, h0]; norm_num

theorem jsWhitespace_backtick : jsWhitespace backtick = false := by decide

theorem fenceMark_isPrefixOf_append (X : List Char) :
    fenceMark.isPrefixOf (fenceMark ++ X) = true := by
  simp [fenceMark, List.isPrefixOf]

theorem stripOpenFenceData_json (body : List Char) :
    stripOpenFenceData (fenceMark ++ (fenceJsonTag ++ '\n' :: body)) = body := by
  unfold stripOpenFenceData
  rw [if_pos (fenceMark_isPrefixOf_append _)]
  have h3 : (fenceMark ++ (fenceJsonTag ++ '\n' :: body)).drop 3 = fenceJsonTag ++ '\n' :: body := by
    simp [fenceMark]
  rw [h3]
  have h4 : fenceJsonTag.isPrefixOf (fenceJsonTag ++ '\n' :: body) = true := by
    simp [fenceJsonTag, List.isPrefixOf]
  simp [h4, fenceJsonTag]

theorem stripOpenFenceData_plain (body : List Char) :
    stripOpenFenceData (fenceMark ++ '\n' :: body) = body := by
  unfold stripOpenFenceData
  rw [if_pos (fenceMark_isPrefixOf_append _)]
  have h3 : (fenceMark ++ '\n' :: body).drop 3 = '\n' :: body := by simp [fenceMark]
  rw [h3]
  have h4 : fenceJsonTag.isPrefixOf ('\n' :: body) = false := by
    simp [fenceJsonTag, List.isPrefixOf]
  simp [h4]

theorem stripCloseFenceData_append (body : List Char) :
    stripCloseFenceData (body ++ '\n' :: fenceMark) = body := by
  unfold stripCloseFenceData
  have hrev : (body ++ '\n' :: fenceMark).reverse = fenceMark ++ '\n' :: body.reverse := by
    simp [fenceMark]
  rw [hrev, if_pos (fenceMark_isPrefixOf_append _)]
  have h3 : (fenceMark ++ '\n' :: body.reverse).drop 3 = '\n' :: body.reverse := by simp [fenceMark]
  rw [h3]
  simp

theorem dropWhile_keep {p : Char → Bool} {l : List Char}
    (h : ∀ c, l.head? = some c → p c = false) : l.dropWhile p = l := by
  cases l with
  | nil => rfl
  | cons a t => simp [List.dropWhile_cons, h a rfl]

theorem trimData_keep {l : List Char}
    (h1 : ∀ c, l.head? = some c → jsWhitespace c = false)
    (h2 : ∀ c, l.getLast? = some c → jsWhitespace c = false) : trimData l = l := by
  unfold trimData
  rw [dropWhile_keep h1, dropWhile_keep ?hr, List.reverse_reverse]
  case hr => intro c hc; apply h2; rwa [List.head?_reverse] at hc

theorem trimData_fence_wrapped (X : List Char) :
    trimData (fenceMark ++ (X ++ '\n' :: fenceMark)) = fenceMark ++ (X ++ '\n' :: fenceMark) := by
  apply trimData_keep
  · intro c hc
    simp [fenceMark] at hc
    rw [← hc]
    exact jsWhitespace_backtick
  · intro c hc
    rw [← List.head?_reverse] at hc
    simp [fenceMark, List.reverse_append] at hc
    rw [← hc]
    exact jsWhitespace_backtick

theorem validateCategory_ok_weight {i : ℕ} {cat : Json} {t : TasteCategory}
    (h : validateCategory i cat = .ok t) : ∃ w, t.weight = jsClamp01 w := by
  unfold validateCategory at h
  split at h
  · cases h
  · split at h
    case _ name heq =>
      split at h
      case _ w heq2 =>
        split at h
        case _ d heq3 =>
          refine ⟨w, ?_⟩
          cases h
          rfl
        case _ => cases h
      case _ => cases h
    case _ => cases h

theorem validateCategory_ok_weight_bounds {i : ℕ} {cat : Json} {t : TasteCategory}
    (h : validateCategory i cat = .ok t) :
    0 ≤ t.weight.toRat ∧ t.weight.toRat ≤ 1 := by
  obtain ⟨w, hw⟩ := validateCategory_ok_weight h
  rw [hw]
  exact jsClamp01_bounds w

theorem validateCategories_ok_weight_bounds :
    ∀ {cats : List Json} {i : ℕ} {ts : List TasteCategory},
      validateCategories i cats = .ok ts →
      ∀ t ∈ ts, 0 ≤ t.weight.toRat ∧ t.weight.toRat ≤ 1 := by
  intro cats
  induction cats with
  | nil =>
    intro i ts h t ht
    unfold validateCategories at h
    cases h
    cases ht
  | cons c cs ih =>
    intro i ts h t ht
    unfold validateCategories at h
    split at h
    · cases h
    case _ t0 heq =>
      split at h
      · cases h
      case _ ts0 heq2 =>
        cases h
        rcases List.mem_cons.mp ht with rfl | ht2
        · exact validateCategory_ok_weight_bounds heq
        · exact ih heq2 t ht2

theorem toRat_foldl_add_weights (cats : List TasteCategory) :
    ∀ init : JsRat,
      (cats.foldl (fun s c => s.add c.weight) init).toRat =
        init.toRat + (cats.map fun c => c.weight.toRat).sum := by
  induction cats with
  | nil => intro init; simp
  | cons c cs ih =>
    intro init
    simp only [List.foldl_cons, List.map_cons, List.sum_cons, ih, JsRat.toRat_add]
    ring

theorem list_sum_zero_of_nonneg :
    ∀ {l : List ℚ}, (∀ x ∈ l, 0 ≤ x) → l.sum = 0 → ∀ x ∈ l, x = 0 := by
  intro l
  induction l with
  | nil => intro _ _ x hx; cases hx
  | cons a t ih =>
    intro hpos hsum x hx
    have hta : 0 ≤ t.sum := List.sum_nonneg (fun y hy => hpos y (List.mem_cons_of_mem a hy))
    have ha : 0 ≤ a := hpos a (List.mem_cons_self a t)
    rw [List.sum_cons] at hsum
    have ha0 : a = 0 := by linarith
    have ht0 : t.sum = 0 := by linarith
    rcases List.mem_cons.mp hx with rfl | hx2
    · exact ha0
    · exact ih (fun y hy => hpos y (List.mem_cons_of_mem a hy)) ht0 x hx2

theorem normalizeWeights_sum (ts : List TasteCategory)
    (hb : ∀ t ∈ ts, 0 ≤ t.weight.toRat ∧ t.weight.toRat ≤ 1) :
    (((normalizeWeights ts).map fun c => c.weight.toRat).sum = 1 ∧
      0 < (ts.map fun c => c.weight.toRat).sum) ∨
    (normalizeWeights ts = ts ∧ (ts.map fun c => c.weight.toRat).sum = 0 ∧
      ∀ t ∈ ts, t.weight.toRat = 0) := by
  unfold normalizeWeights
  set T := ts.foldl (fun s c => s.add c.weight) (JsRat.ofInt 0) with hT
  have hTval : T.toRat = (ts.map fun c => c.weight.toRat).sum := by
    rw [hT, toRat_foldl_add_weights, JsRat.toRat_ofInt]
    norm_num
  have hS : 0 ≤ (ts.map fun c => c.weight.toRat).sum := by
    apply List.sum_nonneg
    intro x hx
    obtain ⟨c, hc, rfl⟩ := List.mem_map.mp hx
    exact (hb c hc).1
  by_cases hpos : JsRat.blt (JsRat.ofInt 0) T = true
  · rw [if_pos hpos]
    left
    have hTnum : 0 < T.num := by
      have h2 := hpos
      simp only [JsRat.blt, JsRat.ofInt, decide_eq_true_eq] at h2
      omega
    have hTpos : 0 < T.toRat := by
      have h2 := (JsRat.blt_iff (JsRat.ofInt 0) T).mp hpos
      rwa [JsRat.toRat_ofInt, Int.cast_zero] at h2
    constructor
    · rw [List.map_map]
      show (ts.map fun c : TasteCategory => (c.weight.div T).toRat).sum = 1
      have hmap : (ts.map fun c : TasteCategory => (c.weight.div T).toRat) =
          ts.map fun c => c.weight.toRat * (T.toRat)⁻¹ := by
        apply List.map_congr_left
        intro c _
        rw [JsRat.toRat_div_pos c.weight T hTnum, div_eq_mul_inv]
      rw [hmap, List.sum_map_mul_right, ← hTval, mul_inv_cancel₀ (ne_of_gt hTpos)]
    · rw [← hTval]
      exact hTpos
  · rw [if_neg hpos]
    right
    have hTnum : T.num ≤ 0 := by
      simp only [JsRat.blt, JsRat.ofInt, decide_eq_true_eq] at hpos
      omega
    have hTnonpos : T.toRat ≤ 0 := by
      unfold JsRat.toRat
      apply div_nonpos_of_nonpos_of_nonneg
      · exact_mod_cast hTnum
      · exact le_of_lt T.den_pos_q
    have hSz : (ts.map fun c => c.weight.toRat).sum = 0 := by
      rw [← hTval]
      have := hTval
      linarith [hS, hTnonpos, this]
    refine ⟨rfl, hSz, ?_⟩
    intro t ht
    apply list_sum_zero_of_nonneg (l := ts.map fun c => c.weight.toRat) ?hp hSz
    · exact List.mem_map.mpr ⟨t, ht, rfl⟩
    case hp =>
      intro x hx
      obtain ⟨c, hc, rfl⟩ := List.mem_map.mp hx
      exact (hb c hc).1

theorem validateCategory_not_object (i : ℕ) (cat : Json)
    (h : isUsableObject cat = false) :
    validateCategory i cat = .error ("Category " ++ toString i ++ " is not an object") := by
  simp [validateCategory, h]

theorem validateCategory_missing_name (i : ℕ) (cat : Json)
    (hobj : isUsableObject cat = true)
    (hname : ∀ s, getField cat "name" ≠ some (.str s)) :
    validateCategory i cat = .error ("Category " ++ toString i ++ " missing name") := by
  unfold validateCategory
  rw [if_neg (by simp [hobj])]
  rcases hg : getField cat "name" with _ | v
  · rfl
  · cases v with
    | str s => exact absurd hg (hname s)
    | null => rfl
    | bool b => rfl
    | num q => rfl
    | arr l => rfl
    | obj fs => rfl

theorem validateCategory_missing_weight (i : ℕ) (cat : Json) (nm : String)
    (hobj : isUsableObject cat = true)
    (hn : getField cat "name" = some (.str nm))
    (hweight : ∀ q, getField cat "weight" ≠ some (.num q)) :
    validateCategory i cat = .error ("Category " ++ toString i ++ " missing weight") := by
  unfold validateCategory
  rw [if_neg (by simp [hobj]), hn]
  rcases hg : getField cat "weight" with _ | v
  · rfl
  · cases v with
    | num q => exact absurd hg (hweight q)
    | null => rfl
    | bool b => rfl
    | str s => rfl
    | arr l => rfl
    | obj fs => rfl

theorem validateCategory_missing_description (i : ℕ) (cat : Json) (nm : String) (w : JsRat)
    (hobj : isUsableObject cat = true)
    (hn : getField cat "name" = some (.str nm))
    (hw : getField cat "weight" = some (.num w))
    (hdesc : ∀ s, getField cat "description" ≠ some (.str s)) :
    validateCategory i cat = .error ("Category " ++ toString i ++ " missing description") := by
  unfold validateCategory
  rw [if_neg (by simp [hobj]), hn, hw]
  rcases hg : getField cat "description" with _ | v
  · rfl
  · cases v with
    | str s => exact absurd hg (hdesc s)
    | null => rfl
    | bool b => rfl
    | num q => rfl
    | arr l => rfl
    | obj fs => rfl

theorem validateCategory_ok_with_subs (i : ℕ) (cat : Json) (nm : String) (w : JsRat)
    (d : String) (subs : List Json)
    (hobj : isUsableObject cat = true)
    (hn : getField cat "name" = some (.str nm))
    (hw : getField cat "weight" = some (.num w))
    (hd : getField cat "description" = some (.str d))
    (hs : getField cat "subCategories" = some (.arr subs)) :
    validateCategory i cat = .ok
      { name := nm, weight := jsClamp01 w, description := d,
        subCategories := some (subs.filterMap fun s =>
          match s with
          | .str t => some t
          | _ => none) } := by
  unfold validateCategory
  rw [if_neg (by simp [hobj]), hn, hw, hd, hs]

theorem validateCategory_ok_no_subs (i : ℕ) (cat : Json) (nm : String) (w : JsRat)
    (d : String)
    (hobj : isUsableObject cat = true)
    (hn : getField cat "name" = some (.str nm))
    (hw : getField cat "weight" = some (.num w))
    (hd : getField cat "description" = some (.str d))
    (hs : ∀ l, getField cat "subCategories" ≠ some (.arr l)) :
    validateCategory i cat = .ok
      { name := nm, weight := jsClamp01 w, description := d, subCategories := none } := by
  unfold validateCategory
  rw [if_neg (by simp [hobj]), hn, hw, hd]
  rcases hg : getField cat "subCategories" with _ | v
  · rfl
  · cases v with
    | arr l => exact absurd hg (hs l)
    | null => rfl
    | bool b => rfl
    | num q => rfl
    | str s => rfl
    | obj fs => rfl

theorem validateCategories_first_error :
    ∀ (pre : List Json) (i : ℕ) (ts : List TasteCategory) (bad : Json) (rest : List Json)
      (e : String),
      validateCategories i pre = .ok ts →
      validateCategory (i + pre.length) bad = .error e →
      validateCategories i (pre ++ bad :: rest) = .error e := by
  intro pre
  induction pre with
  | nil =>
    intro i ts bad rest e _ hbad
    rw [List.nil_append]
    unfold validateCategories
    simp only [List.length_nil, Nat.add_zero] at hbad
    rw [hbad]
  | cons c cs ih =>
    intro i ts bad rest e h hbad
    unfold validateCategories at h
    split at h
    · cases h
    case _ t0 heq =>
      split at h
      · cases h
      case _ ts0 heq2 =>
        rw [List.cons_append]
        unfold validateCategories
        rw [heq]
        have hbad2 : validateCategory (i + 1 + cs.length) bad = .error e := by
          rw [show i + 1 + cs.length = i + (c :: cs).length from by
            simp only [List.length_cons]; omega]
          exact hbad
        rw [ih (i + 1) ts0 bad rest e heq2 hbad2]

theorem parseAnalysisResponse_propagates_category_error
    (content : String) (v : Json) (cats : List Json) (s e : String)
    (hp : jsonParse (preprocessResponse content) = .ok v)
    (hobj : isUsableObject v = true)
    (hc : getField v "categories" = some (.arr cats))
    (hs : getField v "analysisSummary" = some (.str s))
    (hv : validateCategories 0 cats = .error e) :
    parseAnalysisResponse content = .error e := by
  rw [parseAnalysisResponse.eq_def]
  simp [hp, hobj, hc, hs, hv]

theorem processRec_skip_not_object (rec : Json) (h : isUsableObject rec = false) :
    processRec rec = none := by
  simp [processRec, h]

theorem processRec_skip_no_title (rec : Json)
    (h : ∀ s, getField rec "channelTitle" ≠ some (.str s)) : processRec rec = none := by
  unfold processRec
  by_cases hobj : isUsableObject rec = false
  · simp [hobj]
  · rw [if_neg hobj]
    rcases hg : getField rec "channelTitle" with _ | v
    · rfl
    · cases v with
      | str s => exact absurd hg (h s)
      | null => rfl
      | bool b => rfl
      | num q => rfl
      | arr l => rfl
      | obj fs => rfl

theorem processRec_skip_empty_title (rec : Json)
    (h : getField rec "channelTitle" = some (.str "")) : processRec rec = none := by
  unfold processRec
  by_cases hobj : isUsableObject rec = false
  · simp [hobj]
  · rw [if_neg hobj, h]
    rfl

theorem processRec_skip_no_reason (rec : Json)
    (h : ∀ s, getField rec "reason" ≠ some (.str s)) : processRec rec = none := by
  unfold processRec
  by_cases hobj : isUsableObject rec = false
  · simp [hobj]
  · rw [if_neg hobj]
    rcases hg : getField rec "channelTitle" with _ | v
    · rfl
    · cases v with
      | str ct =>
        by_cases hct : ct = ""
        · simp [hct]
        · rcases hr : getField rec "reason" with _ | w
          · simp [hct, hr]
          · cases w with
            | str s => exact absurd hr (h s)
            | null => simp [hct, hr]
            | bool b => simp [hct, hr]
            | num q => simp [hct, hr]
            | arr l => simp [hct, hr]
            | obj fs => simp [hct, hr]
      | null => rfl
      | bool b => rfl
      | num q => rfl
      | arr l => rfl
      | obj fs => rfl

theorem processRec_skip_empty_reason (rec : Json)
    (h : getField rec "reason" = some (.str "")) : processRec rec = none := by
  unfold processRec
  by_cases hobj : isUsableObject rec = false
  · simp [hobj]
  · rw [if_neg hobj]
    rcases hg : getField rec "channelTitle" with _ | v
    · rfl
    · cases v with
      | str ct =>
        by_cases hct : ct = ""
        · simp [hct]
        · simp [hct, h]
      | null => rfl
      | bool b => rfl
      | num q => rfl
      | arr l => rfl
      | obj fs => rfl

theorem processRec_some_fields (rec : Json) (item : RecommendationItem)
    (h : processRec rec = some item) :
    getField rec "channelTitle" = some (.str item.channelTitle) ∧
    item.channelTitle ≠ "" ∧
    getField rec "reason" = some (.str item.reason) ∧
    item.reason ≠ "" ∧
    item.type = recTypeOf rec ∧
    item.category = recCategoryOf rec ∧
    item.confidenceScore = jsClamp01 (recScoreOf rec) ∧
    item.channelId = recChannelIdOf rec ∧
    item.subscriberCount = recSubscriberCountOf rec := by
  unfold processRec at h
  split at h
  · cases h
  · split at h
    case _ ct hct =>
      split at h
      · cases h
      case _ hne =>
        split at h
        case _ rs hrs =>
          split at h
          · cases h
          case _ hne2 =>
            cases h
            exact ⟨hct, hne, hrs, hne2, rfl, rfl, rfl, rfl, rfl⟩
        case _ hr => cases h
    case _ hc => cases h

theorem recTypeOf_recognized (rec : Json) (t : String)
    (h : getField rec "type" = some (.str t)) (ht : isRecognizedRecType t = true) :
    recTypeOf rec = t := by
  simp [recTypeOf, h, ht]

theorem recTypeOf_unrecognized (rec : Json) (t : String)
    (h : getField rec "type" = some (.str t)) (ht : isRecognizedRecType t = false) :
    recTypeOf rec = "channel" := by
  simp [recTypeOf, h, ht]

theorem recTypeOf_default (rec : Json)
    (h : ∀ t, getField rec "type" ≠ some (.str t)) : recTypeOf rec = "channel" := by
  unfold recTypeOf
  rcases hg : getField rec "type" with _ | v
  · rfl
  · cases v with
    | str t => exact absurd hg (h t)
    | null => rfl
    | bool b => rfl
    | num q => rfl
    | arr l => rfl
    | obj fs => rfl

theorem recCategoryOf_default (rec : Json)
    (h : ∀ s, getField rec "category" ≠ some (.str s)) : recCategoryOf rec = "General" := by
  unfold recCategoryOf
  rcases hg : getField rec "category" with _ | v
  · rfl
  · cases v with
    | str s => exact absurd hg (h s)
    | null => rfl
    | bool b => rfl
    | num q => rfl
    | arr l => rfl
    | obj fs => rfl

theorem recScoreOf_present (rec : Json) (q : JsRat)
    (h : getField rec "confidenceScore" = some (.num q)) : recScoreOf rec = q := by
  simp [recScoreOf, h]

theorem recScoreOf_default (rec : Json)
    (h : ∀ q, getField rec "confidenceScore" ≠ some (.num q)) :
    recScoreOf rec = ⟨7, 10, (by norm_num)⟩ := by
  unfold recScoreOf
  rcases hg : getField rec "confidenceScore" with _ | v
  · rfl
  · cases v with
    | num q => exact absurd hg (h q)
    | null => rfl
    | bool b => rfl
    | str s => rfl
    | arr l => rfl
    | obj fs => rfl

theorem recChannelIdOf_present (rec : Json) (s : String)
    (h : getField rec "channelId" = some (.str s)) : recChannelIdOf rec = some s := by
  simp [recChannelIdOf, h]

theorem recChannelIdOf_absent (rec : Json)
    (h : ∀ s, getField rec "channelId" ≠ some (.str s)) : recChannelIdOf rec = none := by
  unfold recChannelIdOf
  rcases hg : getField rec "channelId" with _ | v
  · rfl
  · cases v with
    | str s => exact absurd hg (h s)
    | null => rfl
    | bool b => rfl
    | num q => rfl
    | arr l => rfl
    | obj fs => rfl

theorem recSubscriberCountOf_present (rec : Json) (n : JsRat)
    (h : getField rec "subscriberCount" = some (.num n)) :
    recSubscriberCountOf rec = some n := by
  simp [recSubscriberCountOf, h]

theorem recSubscriberCountOf_absent (rec : Json)
    (h : ∀ n, getField rec "subscriberCount" ≠ some (.num n)) :
    recSubscriberCountOf rec = none := by
  unfold recSubscriberCountOf
  rcases hg : getField rec "subscriberCount" with _ | v
  · rfl
  · cases v with
    | num n => exact absurd hg (h n)
    | null => rfl
    | bool b => rfl
    | str s => rfl
    | arr l => rfl
    | obj fs => rfl

theorem parseRecommendations_ok_of_survivor
    (content : String) (v : Json) (recs : List Json)
    (hp : jsonParse (preprocessResponse content) = .ok v)
    (hobj : isUsableObject v = true)
    (hr : getField v "recommendations" = some (.arr recs))
    (hne : recs.filterMap processRec ≠ []) :
    parseRecommendationsResponse content =
      .ok { recommendations := recs.filterMap processRec } := by
  rw [parseRecommendationsResponse.eq_def]
  simp [hp, hobj, hr, hne, List.length_eq_zero]

theorem parseRecommendations_error_of_all_dropped
    (content : String) (v : Json) (recs : List Json)
    (hp : jsonParse (preprocessResponse content) = .ok v)
    (hobj : isUsableObject v = true)
    (hr : getField v "recommendations" = some (.arr recs))
    (hall : ∀ r ∈ recs, processRec r = none) :
    parseRecommendationsResponse content = .error "No valid recommendations in LLM response" := by
  rw [parseRecommendationsResponse.eq_def]
  have hnil : recs.filterMap processRec = [] := List.filterMap_eq_nil_iff.mpr hall
  simp [hp, hobj, hr, hnil]

theorem categoryLe_iff (a b : TasteCategory) :
    categoryLe a b = true ↔ b.weight.toRat ≤ a.weight.toRat := by
  unfold categoryLe
  rw [JsRat.ble_iff, JsRat.toRat_sub, JsRat.toRat_ofInt, Int.cast_zero, sub_nonpos]

theorem categoryLe_trans (a b c : TasteCategory) :
    categoryLe a b → categoryLe b c → categoryLe a c := by
  intro h1 h2
  rw [categoryLe_iff] at h1 h2 ⊢
  linarith

theorem categoryLe_total (a b : TasteCategory) :
    categoryLe a b || categoryLe b a := by
  rcases le_total b.weight.toRat a.weight.toRat with h | h
  · rw [Bool.or_eq_true]; left; exact (categoryLe_iff a b).mpr h
  · rw [Bool.or_eq_true]; right; exact (categoryLe_iff b a).mpr h

theorem sortCategoriesDesc_pairwise (cats : List TasteCategory) :
    (sortCategoriesDesc cats).Pairwise fun a b => b.weight.toRat ≤ a.weight.toRat := by
  have h := @List.sorted_mergeSort _ categoryLe
    (fun a b c => categoryLe_trans a b c) (fun a b => categoryLe_total a b) cats
  exact h.imp fun hab => (categoryLe_iff _ _).mp hab

theorem sortCategoriesDesc_perm (cats : List TasteCategory) :
    (sortCategoriesDesc cats).Perm cats :=
  List.mergeSort_perm cats categoryLe

theorem sortCategoriesDesc_stable_filter (cats : List TasteCategory) (w : ℚ) :
    (sortCategoriesDesc cats).filter (fun c => decide (c.weight.toRat = w)) =
      cats.filter (fun c => decide (c.weight.toRat = w)) := by
  set p : TasteCategory → Bool := fun c => decide (c.weight.toRat = w) with hp
  have hmem : ∀ c ∈ cats.filter p, c.weight.toRat = w := by
    intro c hc
    have := List.of_mem_filter hc
    rwa [hp, decide_eq_true_eq] at this
  have hpw : (cats.filter p).Pairwise fun a b => categoryLe a b = true := by
    apply List.pairwise_of_forall_mem_list
    intro a ha b hb
    rw [categoryLe_iff, hmem a ha, hmem b hb]
  have hsub : List.Sublist (cats.filter p) (sortCategoriesDesc cats) :=
    List.sublist_mergeSort (fun a b c => categoryLe_trans a b c)
      (fun a b => categoryLe_total a b) hpw (List.filter_sublist cats)
  have hsub2 : List.Sublist (cats.filter p) ((sortCategoriesDesc cats).filter p) := by
    have : (cats.filter p).filter p = cats.filter p := by
      apply List.filter_eq_self.mpr
      intro c hc
      rw [hp, decide_eq_true_eq]
      exact hmem c hc
    rw [← this]
    exact List.Sublist.filter p hsub
  have hlen : ((sortCategoriesDesc cats).filter p).length = (cats.filter p).length :=
    ((sortCategoriesDesc_perm cats).filter p).length_eq
  exact (hsub2.eq_of_length hlen.symm).symm

/-! ### Claim theorems -/

/-- C4: for every input text to either parser, after trimming whitespace:
a text wrapped in a fenced code block marker (with the optional json
language tag or with none) has the opening and closing fences stripped
before JSON parsing, and a text that does not start with a fence marker is
left as-is (fails open). -/
theorem preprocess_fence_handling :
    (∀ body : List Char,
       preprocessResponse ⟨fenceMark ++ (fenceJsonTag ++ '\n' :: (body ++ '\n' :: fenceMark))⟩ =
         ⟨body⟩) ∧
    (∀ body : List Char,
       preprocessResponse ⟨fenceMark ++ ('\n' :: (body ++ '\n' :: fenceMark))⟩ = ⟨body⟩) ∧
    (∀ s : String, fenceMark.isPrefixOf (trimData s.data) = false →
       preprocessResponse s = ⟨trimData s.data⟩) := by
  refine ⟨?_, ?_, ?_⟩
  · intro body
    show (⟨stripFencesData (trimData _)⟩ : String) = ⟨body⟩
    have hsh : fenceMark ++ (fenceJsonTag ++ '\n' :: (body ++ '\n' :: fenceMark)) =
        fenceMark ++ ((fenceJsonTag ++ '\n' :: body) ++ '\n' :: fenceMark) := by simp
    rw [hsh, trimData_fence_wrapped, ← hsh, stripFencesData,
      if_pos (fenceMark_isPrefixOf_append _)]
    have hopen : stripOpenFenceData
        (fenceMark ++ (fenceJsonTag ++ '\n' :: (body ++ '\n' :: fenceMark))) =
        body ++ '\n' :: fenceMark := stripOpenFenceData_json _
    rw [hopen, stripCloseFenceData_append]
  · intro body
    show (⟨stripFencesData (trimData _)⟩ : String) = ⟨body⟩
    have hsh : fenceMark ++ ('\n' :: (body ++ '\n' :: fenceMark)) =
        fenceMark ++ (('\n' :: body) ++ '\n' :: fenceMark) := by simp
    rw [hsh, trimData_fence_wrapped, ← hsh, stripFencesData,
      if_pos (fenceMark_isPrefixOf_append _)]
    have hopen : stripOpenFenceData (fenceMark ++ ('\n' :: (body ++ '\n' :: fenceMark))) =
        body ++ '\n' :: fenceMark := stripOpenFenceData_plain _
    rw [hopen, stripCloseFenceData_append]
  · intro s h
    show (⟨stripFencesData (trimData s.data)⟩ : String) = ⟨trimData s.data⟩
    rw [stripFencesData, if_neg (by simp [h])]

/-- C4 witness: a text not starting with a fence marker is passed through
with only the trim applied. -/
theorem preprocess_fence_handling_witness :
    preprocessResponse "x \x7b\"a\":1\x7d" = ⟨trimData "x \x7b\"a\":1\x7d".data⟩ :=
  preprocess_fence_handling.2.2 "x \x7b\"a\":1\x7d" (by decide)


/-- C6: for the input with both the subscription list and the liked-video
list empty, analyzeTaste fails with the NoData error message, and the
provider is never invoked (the second component of the run is false),
whatever completion the provider would have returned. -/
theorem analyzeTaste_empty_input_fails_before_provider
    (oracle : List LLMMessage → LLMCompletionOptions → String) :
    analyzeTasteRun oracle { subscriptions := [], likedVideos := [] } =
      (.error "No YouTube data available to analyze. Please sync your YouTube data first.",
       false) := by
  rfl

/-- C10: parseAnalysisResponse accepts a response whose categories field is
an empty array: it succeeds with zero categories and the summary carried
verbatim, with no minimum-category-count check rejecting it. -/
theorem parseAnalysisResponse_accepts_empty_categories :
    parseAnalysisResponse "\x7b\"categories\":[],\"analysisSummary\":\"s\"\x7d" =
      .ok { categories := [], analysisSummary := "s" } := by
  decide

/-- C5 counterexample: an unexpected Error thrown inside the analyze
pipeline (here the GitHub provider's error, which embeds the raw upstream
error body) reaches the route's catch block without a statusCode property,
and the catch block propagates its message verbatim to the caller: the
caller-visible message is the provider message carrying the raw body, not
the generic text the claim requires. -/
theorem analyzeCatch_exposes_provider_error_body :
    analyzeCatchHandler
        { isTruthyObject := true, hasStatusCodeProp := false, statusCode := 0,
          isErrorInstance := true,
          message := githubProviderErrorMessage 500 "upstream quota exhausted" } =
      { statusCode := 500,
        message := "GitHub Models API error (500): upstream quota exhausted" } ∧
    "GitHub Models API error (500): upstream quota exhausted" ≠
      "Failed to analyze taste profile" := by
  constructor
  · decide
  · decide

/-- C5 amended: the catch block of the analyze route re-throws a caught
truthy object carrying a statusCode property unchanged; any other caught
value becomes a 500 whose caller-visible message is the caught Error's own
message (which may embed a raw provider error body) when the value is an
Error instance, and is the generic text only when it is not. -/
theorem analyzeCatch_classification (e : CaughtValue) :
    (e.isTruthyObject = true → e.hasStatusCodeProp = true →
      analyzeCatchHandler e = { statusCode := e.statusCode, message := e.message }) ∧
    ((e.isTruthyObject && e.hasStatusCodeProp) = false → e.isErrorInstance = true →
      analyzeCatchHandler e = { statusCode := 500, message := e.message }) ∧
    ((e.isTruthyObject && e.hasStatusCodeProp) = false → e.isErrorInstance = false →
      analyzeCatchHandler e =
        { statusCode := 500, message := "Failed to analyze taste profile" }) := by
  refine ⟨?_, ?_, ?_⟩ <;> intro h1 h2 <;> simp [analyzeCatchHandler, h1, h2]

/-- C5 amended, witness: a caught non-Error value yields the generic
message. -/
theorem analyzeCatch_classification_witness :
    analyzeCatchHandler
        { isTruthyObject := false, hasStatusCodeProp := false, statusCode := 0,
          isErrorInstance := false, message := "boom" } =
      { statusCode := 500, message := "Failed to analyze taste profile" } :=
  (analyzeCatch_classification
    { isTruthyObject := false, hasStatusCodeProp := false, statusCode := 0,
      isErrorInstance := false, message := "boom" }).2.2 (by decide) (by decide)

/-- C1: every category list returned by parseAnalysisResponse has rational
weights summing to 1 (trivially within the 1e-9 tolerance, since the model
computes exactly), unless the sum of the post-clamp weights before
normalization was exactly 0, in which case the weights are left unchanged
(normalization skipped) and are then all zero. -/
theorem parseAnalysisResponse_weight_sum (content : String) (r : TasteAnalysisResult)
    (h : parseAnalysisResponse content = .ok r) :
    |((r.categories.map fun c => c.weight.toRat).sum) - 1| ≤ 1 / 1000000000 ∨
    ((r.categories.map fun c => c.weight.toRat).sum = 0 ∧
      ∀ c ∈ r.categories, c.weight.toRat = 0) := by
  rw [parseAnalysisResponse.eq_def] at h
  simp only [] at h
  split at h
  · cases h
  case _ parsed heq =>
    split at h
    · cases h
    · split at h
      case _ cats heqc =>
        split at h
        case _ s heqs =>
          split at h
          · cases h
          case _ ts heqv =>
            cases h
            have hb := validateCategories_ok_weight_bounds heqv
            rcases normalizeWeights_sum ts hb with ⟨h1, _⟩ | ⟨hEq, h0, hz⟩
            · left
              show |((normalizeWeights ts).map fun c => c.weight.toRat).sum - 1| ≤ 1 / 1000000000
              rw [h1]
              norm_num
            · right
              constructor
              · show ((normalizeWeights ts).map fun c => c.weight.toRat).sum = 0
                rw [hEq]
                exact h0
              · intro c hc
                have hc2 : c ∈ ts := by
                  have : c ∈ normalizeWeights ts := hc
                  rwa [hEq] at this
                exact hz c hc2
        case _ => cases h
      case _ => cases h

set_option maxRecDepth 10000 in
/-- C1 witness: the two-category response of the spec's scenario B has
weights summing to one. -/
theorem parseAnalysisResponse_weight_sum_witness :
    |((([⟨"Tech", ⟨500, 1000, (by norm_num)⟩, "x", none⟩,
         ⟨"Games", ⟨500, 1000, (by norm_num)⟩, "y", none⟩] :
          List TasteCategory).map fun c => c.weight.toRat).sum) - 1| ≤ 1 / 1000000000 ∨
    ((([⟨"Tech", ⟨500, 1000, (by norm_num)⟩, "x", none⟩,
        ⟨"Games", ⟨500, 1000, (by norm_num)⟩, "y", none⟩] :
          List TasteCategory).map fun c => c.weight.toRat).sum = 0 ∧
      ∀ c ∈ ([⟨"Tech", ⟨500, 1000, (by norm_num)⟩, "x", none⟩,
          ⟨"Games", ⟨500, 1000, (by norm_num)⟩, "y", none⟩] : List TasteCategory),
        c.weight.toRat = 0) :=
  parseAnalysisResponse_weight_sum
    "\x7b\"categories\":[\x7b\"name\":\"Tech\",\"weight\":0.5,\"description\":\"x\"\x7d,\x7b\"name\":\"Games\",\"weight\":0.5,\"description\":\"y\"\x7d],\"analysisSummary\":\"s\"\x7d"
    ⟨[⟨"Tech", ⟨500, 1000, (by norm_num)⟩, "x", none⟩,
      ⟨"Games", ⟨500, 1000, (by norm_num)⟩, "y", none⟩], "s"⟩ (by decide)

/-- C2: in the taste-analysis parser, each entry of the categories array is
checked in index order: an entry that is not a usable object, or whose name
is not a string, or whose weight is not a number, or whose description is
not a string, makes parsing fail with the error naming that entry's index
(the first offending index when earlier entries validate); a valid entry's
subCategories array is filtered down to its string elements without raising
an error (and a missing or non-array subCategories is dropped to none). -/
theorem parseAnalysis_category_validation :
    (∀ (i : ℕ) (cat : Json), isUsableObject cat = false →
      validateCategory i cat = .error ("Category " ++ toString i ++ " is not an object")) ∧
    (∀ (i : ℕ) (cat : Json), isUsableObject cat = true →
      (∀ s, getField cat "name" ≠ some (.str s)) →
      validateCategory i cat = .error ("Category " ++ toString i ++ " missing name")) ∧
    (∀ (i : ℕ) (cat : Json) (nm : String), isUsableObject cat = true →
      getField cat "name" = some (.str nm) →
      (∀ q, getField cat "weight" ≠ some (.num q)) →
      validateCategory i cat = .error ("Category " ++ toString i ++ " missing weight")) ∧
    (∀ (i : ℕ) (cat : Json) (nm : String) (w : JsRat), isUsableObject cat = true →
      getField cat "name" = some (.str nm) →
      getField cat "weight" = some (.num w) →
      (∀ s, getField cat "description" ≠ some (.str s)) →
      validateCategory i cat = .error ("Category " ++ toString i ++ " missing description")) ∧
    (∀ (i : ℕ) (cat : Json) (nm : String) (w : JsRat) (d : String) (subs : List Json),
      isUsableObject cat = true →
      getField cat "name" = some (.str nm) →
      getField cat "weight" = some (.num w) →
      getField cat "description" = some (.str d) →
      getField cat "subCategories" = some (.arr subs) →
      validateCategory i cat = .ok
        { name := nm, weight := jsClamp01 w, description := d,
          subCategories := some (subs.filterMap fun s =>
            match s with
            | .str t => some t
            | _ => none) }) ∧
    (∀ (i : ℕ) (cat : Json) (nm : String) (w : JsRat) (d : String),
      isUsableObject cat = true →
      getField cat "name" = some (.str nm) →
      getField cat "weight" = some (.num w) →
      getField cat "description" = some (.str d) →
      (∀ l, getField cat "subCategories" ≠ some (.arr l)) →
      validateCategory i cat = .ok
        { name := nm, weight := jsClamp01 w, description := d, subCategories := none }) ∧
    (∀ (pre : List Json) (i : ℕ) (ts : List TasteCategory) (bad : Json) (rest : List Json)
        (e : String),
      validateCategories i pre = .ok ts →
      validateCategory (i + pre.length) bad = .error e →
      validateCategories i (pre ++ bad :: rest) = .error e) ∧
    (∀ (content : String) (v : Json) (cats : List Json) (s e : String),
      jsonParse (preprocessResponse content) = .ok v →
      isUsableObject v = true →
      getField v "categories" = some (.arr cats) →
      getField v "analysisSummary" = some (.str s) →
      validateCategories 0 cats = .error e →
      parseAnalysisResponse content = .error e) :=
  ⟨validateCategory_not_object, validateCategory_missing_name,
   validateCategory_missing_weight, validateCategory_missing_description,
   validateCategory_ok_with_subs, validateCategory_ok_no_subs,
   validateCategories_first_error, parseAnalysisResponse_propagates_category_error⟩

set_option maxRecDepth 10000 in
/-- C2 witness: a response whose second category entry is the number 7 fails
with the InvalidShape error naming index 1. -/
theorem parseAnalysis_category_validation_witness :
    parseAnalysisResponse
        "\x7b\"categories\":[\x7b\"name\":\"A\",\"weight\":1,\"description\":\"d\"\x7d,7],\"analysisSummary\":\"s\"\x7d" =
      .error "Category 1 is not an object" :=
  parseAnalysis_category_validation.2.2.2.2.2.2.2
    "\x7b\"categories\":[\x7b\"name\":\"A\",\"weight\":1,\"description\":\"d\"\x7d,7],\"analysisSummary\":\"s\"\x7d"
    (.obj [("categories", .arr [.obj [("name", .str "A"), ("weight", .num ⟨1, 1, (by norm_num)⟩),
        ("description", .str "d")], .num ⟨7, 1, (by norm_num)⟩]),
      ("analysisSummary", .str "s")])
    [.obj [("name", .str "A"), ("weight", .num ⟨1, 1, (by norm_num)⟩),
        ("description", .str "d")], .num ⟨7, 1, (by norm_num)⟩]
    "s" "Category 1 is not an object"
    (by decide) (by decide) (by decide) (by decide) (by decide)

/-- C3: in the recommendations parser, an entry that is not a usable object,
or whose channelTitle or reason is missing, non-string or empty, is skipped
(absent from the result) without aborting the batch; for every kept entry
the type is defaulted to channel unless it is one of the three recognised
kinds, the category defaults to General when missing or non-string, the
confidence score defaults to 0.7 when missing or non-number and is clamped
to [0,1], and channelId / subscriberCount are carried through only when
present with the expected primitive type; a surviving batch is returned as
the filtered list. -/
theorem parseRecommendations_entry_rules :
    (∀ rec : Json, isUsableObject rec = false → processRec rec = none) ∧
    (∀ rec : Json, (∀ s, getField rec "channelTitle" ≠ some (.str s)) →
      processRec rec = none) ∧
    (∀ rec : Json, getField rec "channelTitle" = some (.str "") → processRec rec = none) ∧
    (∀ rec : Json, (∀ s, getField rec "reason" ≠ some (.str s)) → processRec rec = none) ∧
    (∀ rec : Json, getField rec "reason" = some (.str "") → processRec rec = none) ∧
    (∀ (rec : Json) (item : RecommendationItem), processRec rec = some item →
      getField rec "channelTitle" = some (.str item.channelTitle) ∧
      item.channelTitle ≠ "" ∧
      getField rec "reason" = some (.str item.reason) ∧
      item.reason ≠ "" ∧
      item.type = recTypeOf rec ∧
      item.category = recCategoryOf rec ∧
      item.confidenceScore = jsClamp01 (recScoreOf rec) ∧
      item.channelId = recChannelIdOf rec ∧
      item.subscriberCount = recSubscriberCountOf rec) ∧
    (∀ (rec : Json) (t : String), getField rec "type" = some (.str t) →
      isRecognizedRecType t = true → recTypeOf rec = t) ∧
    (∀ (rec : Json) (t : String), getField rec "type" = some (.str t) →
      isRecognizedRecType t = false → recTypeOf rec = "channel") ∧
    (∀ rec : Json, (∀ t, getField rec "type" ≠ some (.str t)) → recTypeOf rec = "channel") ∧
    (∀ rec : Json, (∀ s, getField rec "category" ≠ some (.str s)) →
      recCategoryOf rec = "General") ∧
    (∀ (rec : Json) (q : JsRat), getField rec "confidenceScore" = some (.num q) →
      recScoreOf rec = q) ∧
    (∀ rec : Json, (∀ q, getField rec "confidenceScore" ≠ some (.num q)) →
      recScoreOf rec = ⟨7, 10, (by norm_num)⟩) ∧
    (∀ (rec : Json) (item : RecommendationItem), processRec rec = some item →
      0 ≤ item.confidenceScore.toRat ∧ item.confidenceScore.toRat ≤ 1) ∧
    (∀ (rec : Json) (s : String), getField rec "channelId" = some (.str s) →
      recChannelIdOf rec = some s) ∧
    (∀ rec : Json, (∀ s, getField rec "channelId" ≠ some (.str s)) →
      recChannelIdOf rec = none) ∧
    (∀ (rec : Json) (n : JsRat), getField rec "subscriberCount" = some (.num n) →
      recSubscriberCountOf rec = some n) ∧
    (∀ rec : Json, (∀ n, getField rec "subscriberCount" ≠ some (.num n)) →
      recSubscriberCountOf rec = none) ∧
    (∀ (content : String) (v : Json) (recs : List Json),
      jsonParse (preprocessResponse content) = .ok v →
      isUsableObject v = true →
      getField v "recommendations" = some (.arr recs) →
      recs.filterMap processRec ≠ [] →
      parseRecommendationsResponse content =
        .ok { recommendations := recs.filterMap processRec }) :=
  ⟨processRec_skip_not_object, processRec_skip_no_title, processRec_skip_empty_title,
   processRec_skip_no_reason, processRec_skip_empty_reason, processRec_some_fields,
   recTypeOf_recognized, recTypeOf_unrecognized, recTypeOf_default, recCategoryOf_default,
   recScoreOf_present, recScoreOf_default,
   (fun rec item h => by
     rw [(processRec_some_fields rec item h).2.2.2.2.2.2.1]
     exact jsClamp01_bounds _),
   recChannelIdOf_present, recChannelIdOf_absent,
   recSubscriberCountOf_present, recSubscriberCountOf_absent,
   parseRecommendations_ok_of_survivor⟩

set_option maxRecDepth 10000 in
/-- C3 witness: the spec's scenario C, a fenced response with one entry of
bogus type, yields exactly one recommendation with type defaulted to
channel, category to General and confidence score to 0.7. -/
theorem parseRecommendations_entry_rules_witness :
    parseRecommendationsResponse
        "```json\n\x7b\"recommendations\":[\x7b\"type\":\"bogus\",\"channelTitle\":\"A\",\"reason\":\"r\"\x7d]\x7d\n```" =
      .ok { recommendations :=
        [{ type := "channel", channelTitle := "A", channelId := none,
           reason := "r", category := "General", confidenceScore := ⟨7, 10, (by norm_num)⟩,
           subscriberCount := none }] } :=
  (parseRecommendations_entry_rules.2.2.2.2.2.2.2.2.2.2.2.2.2.2.2.2.2
      "```json\n\x7b\"recommendations\":[\x7b\"type\":\"bogus\",\"channelTitle\":\"A\",\"reason\":\"r\"\x7d]\x7d\n```"
      (.obj [("recommendations", .arr [.obj [("type", .str "bogus"),
        ("channelTitle", .str "A"), ("reason", .str "r")]])])
      [.obj [("type", .str "bogus"), ("channelTitle", .str "A"), ("reason", .str "r")]]
      (by decide) (by decide) (by decide) (by decide)).trans (by decide)

/-- C7: for a well-formed JSON response whose recommendations entries are
all dropped by the per-entry skip rules, the parser fails with the
NoValidRecommendations error; it succeeds whenever at least one entry
survives. -/
theorem parseRecommendations_all_dropped :
    (∀ (content : String) (v : Json) (recs : List Json),
      jsonParse (preprocessResponse content) = .ok v →
      isUsableObject v = true →
      getField v "recommendations" = some (.arr recs) →
      (∀ r ∈ recs, processRec r = none) →
      parseRecommendationsResponse content =
        .error "No valid recommendations in LLM response") ∧
    (∀ (content : String) (v : Json) (recs : List Json),
      jsonParse (preprocessResponse content) = .ok v →
      isUsableObject v = true →
      getField v "recommendations" = some (.arr recs) →
      (∃ r ∈ recs, processRec r ≠ none) →
      ∃ out, parseRecommendationsResponse content = .ok out) := by
  constructor
  · exact parseRecommendations_error_of_all_dropped
  · intro content v recs hp hobj hr ⟨r, hrm, hne⟩
    obtain ⟨x, hx⟩ := Option.ne_none_iff_exists'.mp hne
    refine ⟨{ recommendations := recs.filterMap processRec }, ?_⟩
    apply parseRecommendations_ok_of_survivor content v recs hp hobj hr
    exact List.ne_nil_of_mem (List.mem_filterMap.mpr ⟨r, hrm, hx⟩)

set_option maxRecDepth 10000 in
/-- C7 witness: a well-formed response whose single entry is the number 5
is fully dropped and the parser fails with the NoValidRecommendations
message. -/
theorem parseRecommendations_all_dropped_witness :
    parseRecommendationsResponse "\x7b\"recommendations\":[5]\x7d" =
      .error "No valid recommendations in LLM response" :=
  parseRecommendations_all_dropped.1 "\x7b\"recommendations\":[5]\x7d"
    (.obj [("recommendations", .arr [.num ⟨5, 1, (by norm_num)⟩])])
    [.num ⟨5, 1, (by norm_num)⟩]
    (by decide) (by decide) (by decide) (by decide)

/-- C8: the lines of formatCategories render the stable descending-weight
sort of the input: the output is the newline join of the rendered sorted
list, the sorted list is pairwise descending in weight, it is a permutation
of the input, and entries of any given weight keep their original relative
order (filtering the sorted list by a weight value equals filtering the
input). -/
theorem formatCategories_sorted_stable :
    (∀ cats : List TasteCategory,
      formatCategories cats =
        String.intercalate "\n" ((sortCategoriesDesc cats).map renderCategoryLine)) ∧
    (∀ cats : List TasteCategory,
      (sortCategoriesDesc cats).Pairwise fun a b => b.weight.toRat ≤ a.weight.toRat) ∧
    (∀ cats : List TasteCategory, (sortCategoriesDesc cats).Perm cats) ∧
    (∀ (cats : List TasteCategory) (w : ℚ),
      (sortCategoriesDesc cats).filter (fun c => decide (c.weight.toRat = w)) =
        cats.filter (fun c => decide (c.weight.toRat = w))) :=
  ⟨fun _ => rfl, sortCategoriesDesc_pairwise, sortCategoriesDesc_perm,
   sortCategoriesDesc_stable_filter⟩

/-- C9: building the recommendation prompt mutates its input:
formatCategories sorts the caller's categories array in place, so after
buildPrompt, or after any generateRecommendations call that reaches it
(non-empty categories), the caller's tasteProfile.categories array is the
descending-weight sort of the original, and there are inputs on which that
differs from the original order. -/
theorem buildPrompt_sorts_categories_in_place :
    (∀ cats : List TasteCategory, (formatCategoriesRun cats).2 = sortCategoriesDesc cats) ∧
    (∀ input : RecommendationsInput,
      (buildPromptRun input).2.tasteProfile.categories =
        sortCategoriesDesc input.tasteProfile.categories) ∧
    (∀ (oracle : List LLMMessage → LLMCompletionOptions → String)
        (input : RecommendationsInput),
      input.tasteProfile.categories ≠ [] →
      (generateRecommendationsRun oracle input).2.tasteProfile.categories =
        sortCategoriesDesc input.tasteProfile.categories) ∧
    (∃ cats : List TasteCategory, sortCategoriesDesc cats ≠ cats) := by
  refine ⟨fun _ => rfl, fun _ => rfl, ?_, ?_⟩
  · intro oracle input h
    unfold generateRecommendationsRun
    rw [if_neg (by simpa [List.length_eq_zero] using h)]
    rfl
  · refine ⟨[{ name := "A", weight := ⟨1, 4, (by norm_num)⟩, description := "a",
               subCategories := none },
             { name := "B", weight := ⟨3, 4, (by norm_num)⟩, description := "b",
               subCategories := none }], ?_⟩
    intro h
    have hpw := sortCategoriesDesc_pairwise
      [{ name := "A", weight := ⟨1, 4, (by norm_num)⟩, description := "a",
         subCategories := none },
       { name := "B", weight := ⟨3, 4, (by norm_num)⟩, description := "b",
         subCategories := none }]
    rw [h] at hpw
    have hle := List.rel_of_pairwise_cons hpw (List.mem_singleton_self _)
    have : (3 : ℚ) / 4 ≤ 1 / 4 := by
      simpa [JsRat.toRat] using hle
    norm_num at this

/-- C9 witness: a generateRecommendations call on a two-category profile
leaves the caller's categories array equal to the descending sort. -/
theorem buildPrompt_sorts_categories_in_place_witness :
    (generateRecommendationsRun (fun _ _ => "")
        { tasteProfile :=
            { categories :=
                [{ name := "A", weight := ⟨1, 4, (by norm_num)⟩, description := "a",
                   subCategories := none },
                 { name := "B", weight := ⟨3, 4, (by norm_num)⟩, description := "b",
                   subCategories := none }],
              analysisSummary := "s" },
          existingSubscriptions := [] }).2.tasteProfile.categories =
      sortCategoriesDesc
        [{ name := "A", weight := ⟨1, 4, (by norm_num)⟩, description := "a",
           subCategories := none },
         { name := "B", weight := ⟨3, 4, (by norm_num)⟩, description := "b",
           subCategories := none }] :=
  buildPrompt_sorts_categories_in_place.2.2.1 (fun _ _ => "")
    { tasteProfile :=
        { categories :=
            [{ name := "A", weight := ⟨1, 4, (by norm_num)⟩, description := "a",
               subCategories := none },
             { name := "B", weight := ⟨3, 4, (by norm_num)⟩, description := "b",
               subCategories := none }],
          analysisSummary := "s" },
      existingSubscriptions := [] }
    (by decide)

end YTRec
